import Mathlib

/-!
Verification of the worker event-loop orchestrator
(`components/script/dom/abstractworkerglobalscope.rs`) and the desktop
events-loop helpers (`ports/servoshell/desktop/events_loop.rs`).

The Rust code is shallowly embedded: channel interactions are modelled as
oracles supplied in an environment record, and the orchestrator is a pure
function from that environment to a trace of observable actions together
with an outcome (normal return, early shutdown return, or panic).
-/

namespace Servo

/-- The result of the initial four-way `select!` in `run_worker_event_loop`:
which source fired, and (for the three message-carrying sources) whether the
`recv` produced a message (`Except.ok`) or observed disconnection
(`Except.error`, on which the Rust code calls `.unwrap()` and panics).
For the task-ready branch the payload is the combined result of
`take_tasks(msg.unwrap())` followed by `task_queue.recv().unwrap()`.
The timer-wake branch ignores its `recv` result entirely (`recv(...) -> _`). -/
inductive WaitOutcome (C W D : Type) where
  | control (msg : Except Unit C)
  | task_ready (msg : Except Unit W)
  | devtools (msg : Except Unit D)
  | timer_wake

/-- The `WorkerEventLoopMethods` trait surface used by the orchestrator:
the four event constructors and the event handler. `handle_event` returns
`true` to continue and `false` to shut down. -/
structure WorkerEventLoopMethods (C W D E : Type) where
  from_control_msg : C → E
  from_worker_msg : W → E
  from_devtools_msg : D → E
  from_timer_msg : E
  handle_event : E → Bool

/-- Observable actions of one invocation of `run_worker_event_loop`, in
program order. Channel polls record the value the poll returned
(`none` = the channel reported empty / `Err`). -/
inductive Action (W D E : Type) where
  | dispatch_completed_timers
  | read_is_closing (value : Bool)
  | poll_task_queue (result : Option W)
  | poll_devtools (result : Option D)
  | poll_control
  | poll_timer_wake
  | enter_realm
  | handle_event (event : E) (result : Bool)
  | handle_worker_post_event
  | microtask_checkpoint
  | gc_checkpoint
  deriving DecidableEq, Repr

/-- How one invocation of `run_worker_event_loop` ends: falling off the end
(after the GC checkpoint), the early `return` taken when `handle_event`
returns `false`, or a panic (an `unwrap` of a disconnected channel in the
initial `select!`). -/
inductive Outcome where
  | normal
  | shutdown
  | panicked
  deriving DecidableEq, Repr

/-- Environment of one invocation: the resolution of the initial wait, the
value `scope.is_closing()` returns at its i-th read, the successive results
of the non-blocking polls of the drain phase (`take_tasks_and_recv`, and
`devtools_receiver.try_recv` when the former is empty; an exhausted list
means both report empty), and whether a `worker` address was passed
(`Some` in the Rust code). -/
structure WorkerEnv (C W D : Type) where
  wait : WaitOutcome C W D
  is_closing : Nat → Bool
  drain_steps : List (Option W × Option D)
  has_worker : Bool

/-- The event produced by the initial `select!`, or `none` when the fired
branch panics on `.unwrap()` of a disconnection error. -/
def initial_event {C W D E : Type} (M : WorkerEventLoopMethods C W D E) :
    WaitOutcome C W D → Option E
  | .control (.ok msg) => some (M.from_control_msg msg)
  | .control (.error _) => none
  | .task_ready (.ok msg) => some (M.from_worker_msg msg)
  | .task_ready (.error _) => none
  | .devtools (.ok msg) => some (M.from_devtools_msg msg)
  | .devtools (.error _) => none
  | .timer_wake => some M.from_timer_msg

/-- The batch-drain loop `while !scope.is_closing() { match
task_queue.take_tasks_and_recv() { ... } }`: at each iteration the closing
flag is read; when it is `false` the task queue is polled, on emptiness the
devtools channel is tried once, and when both are empty the loop breaks.
Returns the emitted actions and the drained events in order. `i` counts
closing-flag reads. -/
def drain_batch {C W D E : Type} (closing : Nat → Bool)
    (M : WorkerEventLoopMethods C W D E) :
    List (Option W × Option D) → Nat → List (Action W D E) × List E
  | [], i =>
    if closing i then
      ([.read_is_closing true], [])
    else
      ([.read_is_closing false, .poll_task_queue none, .poll_devtools none], [])
  | (tq, dv) :: rest, i =>
    if closing i then
      ([.read_is_closing true], [])
    else
      match tq with
      | some w =>
        let r := drain_batch closing M rest (i + 1)
        (.read_is_closing false :: .poll_task_queue (some w) :: r.1,
          M.from_worker_msg w :: r.2)
      | none =>
        match dv with
        | some d =>
          let r := drain_batch closing M rest (i + 1)
          (.read_is_closing false :: .poll_task_queue none ::
            .poll_devtools (some d) :: r.1,
            M.from_devtools_msg d :: r.2)
        | none =>
          ([.read_is_closing false, .poll_task_queue none, .poll_devtools none], [])

/-- The batch-processing loop `for event in sequential`: enter the realm,
invoke the handler; on `false` return at once (early shutdown), otherwise
run the optional post-event hook and a microtask checkpoint and continue.
The returned `Bool` is `true` when the whole batch completed normally. -/
def process_batch {C W D E : Type} (M : WorkerEventLoopMethods C W D E)
    (has_worker : Bool) : List E → List (Action W D E) × Bool
  | [] => ([], true)
  | e :: rest =>
    if M.handle_event e then
      let r := process_batch M has_worker rest
      (Action.enter_realm :: Action.handle_event e true ::
        ((if has_worker then [Action.handle_worker_post_event] else []) ++
          Action.microtask_checkpoint :: r.1),
        r.2)
    else
      ([Action.enter_realm, Action.handle_event e false], false)

/-- Model of `run_worker_event_loop`: the initial four-way wait (panicking on an
unwrapped disconnection), then `dispatch_completed_timers`, then the batch
drain, then sequential processing, then — only when processing completed
without the early return — the DOM garbage-collection checkpoint. -/
def run_worker_event_loop {C W D E : Type} (M : WorkerEventLoopMethods C W D E)
    (env : WorkerEnv C W D) : List (Action W D E) × Outcome :=
  match initial_event M env.wait with
  | none => ([], .panicked)
  | some event =>
    let d := drain_batch env.is_closing M env.drain_steps 0
    let sequential := event :: d.2
    let p := process_batch M env.has_worker sequential
    (Action.dispatch_completed_timers :: d.1 ++ p.1 ++
        (if p.2 then [Action.gc_checkpoint] else []),
      if p.2 then Outcome.normal else Outcome.shutdown)

/-- The batch assembled by one invocation whose initial wait produced
`event`: that event followed by everything the drain phase appended. -/
def assembled_batch {C W D E : Type} (M : WorkerEventLoopMethods C W D E)
    (env : WorkerEnv C W D) (event : E) : List E :=
  event :: (drain_batch env.is_closing M env.drain_steps 0).2

/-! ### Trace observation helpers -/

/-- The events passed to `handle_event`, in order. -/
def handled_events {W D E : Type} (tr : List (Action W D E)) : List E :=
  tr.filterMap fun a =>
    match a with
    | .handle_event e _ => some e
    | _ => none

def Action.is_micro {W D E : Type} : Action W D E → Bool
  | .microtask_checkpoint => true
  | _ => false

def Action.is_gc {W D E : Type} : Action W D E → Bool
  | .gc_checkpoint => true
  | _ => false

def Action.is_dispatch {W D E : Type} : Action W D E → Bool
  | .dispatch_completed_timers => true
  | _ => false

def Action.is_read_closing {W D E : Type} : Action W D E → Bool
  | .read_is_closing _ => true
  | _ => false

def count_micro {W D E : Type} (tr : List (Action W D E)) : Nat :=
  tr.countP Action.is_micro

def count_gc {W D E : Type} (tr : List (Action W D E)) : Nat :=
  tr.countP Action.is_gc

def count_dispatch {W D E : Type} (tr : List (Action W D E)) : Nat :=
  tr.countP Action.is_dispatch

def count_read_closing {W D E : Type} (tr : List (Action W D E)) : Nat :=
  tr.countP Action.is_read_closing

/-- The actions emitted for one successfully handled event: realm entry, the
handler invocation, the optional post-event hook, one microtask checkpoint. -/
def event_block {W D E : Type} (has_worker : Bool) (e : E) :
    List (Action W D E) :=
  Action.enter_realm :: Action.handle_event e true ::
    ((if has_worker then [Action.handle_worker_post_event] else []) ++
      [Action.microtask_checkpoint])

/-! ### Canonical form of the processing phase -/

/-- Canonical form of `process_batch`: the maximal prefix of events the
handler accepts yields one `event_block` each; a first rejected event yields
realm entry and the failing handler call, and processing stops there. -/
theorem process_batch_eq {C W D E : Type} (M : WorkerEventLoopMethods C W D E)
    (hw : Bool) (evs : List E) :
    process_batch M hw evs =
      ((evs.takeWhile M.handle_event).flatMap (event_block hw) ++
        (match evs.dropWhile M.handle_event with
          | [] => []
          | e :: _ => [Action.enter_realm, Action.handle_event e false]),
        evs.all M.handle_event) := by
  induction evs with
  | nil => rfl
  | cons e rest ih =>
    by_cases h : M.handle_event e = true
    · simp [process_batch, h, ih, List.takeWhile_cons, List.dropWhile_cons,
        event_block, List.all_cons]
    · simp only [Bool.not_eq_true] at h
      simp [process_batch, h, List.takeWhile_cons, List.dropWhile_cons,
        List.all_cons]

/-! ### Shape lemmas for the drain and processing traces -/

/-- Actions that the drain phase may emit. -/
def Action.is_drain_action {W D E : Type} : Action W D E → Bool
  | .read_is_closing _ => true
  | .poll_task_queue _ => true
  | .poll_devtools _ => true
  | _ => false

/-- Actions that the processing phase may emit. -/
def Action.is_process_action {W D E : Type} : Action W D E → Bool
  | .enter_realm => true
  | .handle_event _ _ => true
  | .handle_worker_post_event => true
  | .microtask_checkpoint => true
  | _ => false

theorem drain_batch_shape {C W D E : Type} (closing : Nat → Bool)
    (M : WorkerEventLoopMethods C W D E) :
    ∀ (steps : List (Option W × Option D)) (i : Nat),
      ∀ a ∈ (drain_batch closing M steps i).1, a.is_drain_action = true := by
  intro steps
  induction steps with
  | nil =>
    intro i a ha
    by_cases h : closing i = true
    · simp [drain_batch, h] at ha
      simp [ha, Action.is_drain_action]
    · simp [drain_batch, h] at ha
      rcases ha with h1 | h1 | h1 <;> simp [h1, Action.is_drain_action]
  | cons step rest ih =>
    intro i a ha
    obtain ⟨tq, dv⟩ := step
    by_cases h : closing i = true
    · simp [drain_batch, h] at ha
      simp [ha, Action.is_drain_action]
    · match htq : tq with
      | some w =>
        simp [drain_batch, h, htq] at ha
        rcases ha with h1 | h1 | h1
        · simp [h1, Action.is_drain_action]
        · simp [h1, Action.is_drain_action]
        · exact ih (i + 1) a h1
      | none =>
        match hdv : dv with
        | some d =>
          simp [drain_batch, h, htq, hdv] at ha
          rcases ha with h1 | h1 | h1 | h1
          · simp [h1, Action.is_drain_action]
          · simp [h1, Action.is_drain_action]
          · simp [h1, Action.is_drain_action]
          · exact ih (i + 1) a h1
        | none =>
          simp [drain_batch, h, htq, hdv] at ha
          rcases ha with h1 | h1 | h1 <;> simp [h1, Action.is_drain_action]

theorem process_batch_shape {C W D E : Type} (M : WorkerEventLoopMethods C W D E)
    (hw : Bool) :
    ∀ (evs : List E), ∀ a ∈ (process_batch M hw evs).1,
      a.is_process_action = true := by
  intro evs
  induction evs with
  | nil => intro a ha; simp [process_batch] at ha
  | cons e rest ih =>
    intro a ha
    by_cases h : M.handle_event e = true
    · simp [process_batch, h] at ha
      rcases ha with h1 | h1 | h1 | h1
      · simp [h1, Action.is_process_action]
      · simp [h1, Action.is_process_action]
      · rcases h1 with ⟨hwt, h1⟩
        simp [h1, Action.is_process_action]
      · rcases h1 with h1 | h1
        · simp [h1, Action.is_process_action]
        · exact ih a h1
    · simp only [Bool.not_eq_true] at h
      simp [process_batch, h] at ha
      rcases ha with h1 | h1 <;> simp [h1, Action.is_process_action]

theorem count_micro_drain {C W D E : Type} (closing : Nat → Bool)
    (M : WorkerEventLoopMethods C W D E) (steps : List (Option W × Option D))
    (i : Nat) : count_micro (drain_batch closing M steps i).1 = 0 := by
  rw [count_micro, List.countP_eq_zero]
  intro a ha
  have h := drain_batch_shape closing M steps i a ha
  cases a <;> simp_all [Action.is_drain_action, Action.is_micro]

theorem count_gc_drain {C W D E : Type} (closing : Nat → Bool)
    (M : WorkerEventLoopMethods C W D E) (steps : List (Option W × Option D))
    (i : Nat) : count_gc (drain_batch closing M steps i).1 = 0 := by
  rw [count_gc, List.countP_eq_zero]
  intro a ha
  have h := drain_batch_shape closing M steps i a ha
  cases a <;> simp_all [Action.is_drain_action, Action.is_gc]

theorem count_dispatch_drain {C W D E : Type} (closing : Nat → Bool)
    (M : WorkerEventLoopMethods C W D E) (steps : List (Option W × Option D))
    (i : Nat) : count_dispatch (drain_batch closing M steps i).1 = 0 := by
  rw [count_dispatch, List.countP_eq_zero]
  intro a ha
  have h := drain_batch_shape closing M steps i a ha
  cases a <;> simp_all [Action.is_drain_action, Action.is_dispatch]

theorem handled_events_drain {C W D E : Type} (closing : Nat → Bool)
    (M : WorkerEventLoopMethods C W D E) (steps : List (Option W × Option D))
    (i : Nat) : handled_events (drain_batch closing M steps i).1 = [] := by
  rw [handled_events, List.filterMap_eq_nil_iff]
  intro a ha
  have h := drain_batch_shape closing M steps i a ha
  cases a <;> simp_all [Action.is_drain_action]

theorem count_dispatch_process {C W D E : Type}
    (M : WorkerEventLoopMethods C W D E) (hw : Bool) (evs : List E) :
    count_dispatch (process_batch M hw evs).1 = 0 := by
  rw [count_dispatch, List.countP_eq_zero]
  intro a ha
  have h := process_batch_shape M hw evs a ha
  cases a <;> simp_all [Action.is_process_action, Action.is_dispatch]

theorem count_gc_process {C W D E : Type}
    (M : WorkerEventLoopMethods C W D E) (hw : Bool) (evs : List E) :
    count_gc (process_batch M hw evs).1 = 0 := by
  rw [count_gc, List.countP_eq_zero]
  intro a ha
  have h := process_batch_shape M hw evs a ha
  cases a <;> simp_all [Action.is_process_action, Action.is_gc]

theorem count_read_closing_process {C W D E : Type}
    (M : WorkerEventLoopMethods C W D E) (hw : Bool) (evs : List E) :
    count_read_closing (process_batch M hw evs).1 = 0 := by
  rw [count_read_closing, List.countP_eq_zero]
  intro a ha
  have h := process_batch_shape M hw evs a ha
  cases a <;> simp_all [Action.is_process_action, Action.is_read_closing]

theorem handled_events_append {W D E : Type} (l1 l2 : List (Action W D E)) :
    handled_events (l1 ++ l2) = handled_events l1 ++ handled_events l2 :=
  List.filterMap_append l1 l2 _

theorem handled_events_event_block {W D E : Type} (hw : Bool) (e : E) :
    handled_events (W := W) (D := D) (event_block hw e) = [e] := by
  cases hw <;> simp [event_block, handled_events]

theorem handled_events_flatMap {W D E : Type} (hw : Bool) (l : List E) :
    handled_events (W := W) (D := D) (l.flatMap (event_block hw)) = l := by
  induction l with
  | nil => simp [handled_events]
  | cons e rest ih =>
    simp only [List.flatMap_cons, handled_events_append, ih,
      handled_events_event_block, List.singleton_append]

theorem count_micro_event_block {W D E : Type} (hw : Bool) (e : E) :
    count_micro (W := W) (D := D) (event_block hw e) = 1 := by
  cases hw <;> simp [event_block, count_micro, Action.is_micro]

theorem count_micro_flatMap {W D E : Type} (hw : Bool) (l : List E) :
    count_micro (W := W) (D := D) (l.flatMap (event_block hw)) = l.length := by
  induction l with
  | nil => simp [count_micro]
  | cons e rest ih =>
    simp only [List.flatMap_cons, count_micro, List.countP_append,
      List.length_cons]
    rw [← count_micro, ← count_micro, count_micro_event_block hw e, ih]
    omega

theorem count_gc_flatMap {W D E : Type} (hw : Bool) (l : List E) :
    count_gc (W := W) (D := D) (l.flatMap (event_block hw)) = 0 := by
  induction l with
  | nil => simp [count_gc]
  | cons e rest ih =>
    simp only [List.flatMap_cons, count_gc, List.countP_append]
    rw [← count_gc, ← count_gc, ih]
    cases hw <;> simp [event_block, count_gc, Action.is_gc]

/-- Unfolding of `run_worker_event_loop` when the initial wait produced an
event: timers dispatched, drain trace, processing trace, then the GC
checkpoint exactly when processing completed. -/
theorem run_worker_event_loop_some {C W D E : Type}
    (M : WorkerEventLoopMethods C W D E) (env : WorkerEnv C W D) (e : E)
    (h : initial_event M env.wait = some e) :
    (run_worker_event_loop M env).1 =
      Action.dispatch_completed_timers ::
        (drain_batch env.is_closing M env.drain_steps 0).1 ++
        (process_batch M env.has_worker (assembled_batch M env e)).1 ++
        (if (process_batch M env.has_worker (assembled_batch M env e)).2 then
          [Action.gc_checkpoint] else []) ∧
    (run_worker_event_loop M env).2 =
      (if (process_batch M env.has_worker (assembled_batch M env e)).2 then
        Outcome.normal else Outcome.shutdown) := by
  constructor <;> simp [run_worker_event_loop, h, assembled_batch]

/-- If the first index at which `p` fails is `k`, then `takeWhile` keeps the
first `k` elements and `dropWhile` drops them. -/
theorem takeWhile_eq_take_of_first_false {α : Type} (p : α → Bool) :
    ∀ (l : List α) (k : Nat) (hk : k < l.length),
      p (l.get ⟨k, hk⟩) = false →
      (∀ (j : Nat) (hj : j < k), p (l.get ⟨j, hj.trans hk⟩) = true) →
      l.takeWhile p = l.take k ∧ l.dropWhile p = l.drop k := by
  intro l
  induction l with
  | nil => intro k hk; simp at hk
  | cons a rest ih =>
    intro k hk hfalse htrue
    match k with
    | 0 =>
      simp only [List.get] at hfalse
      simp [List.takeWhile_cons, List.dropWhile_cons, hfalse]
    | k' + 1 =>
      have ha : p a = true := htrue 0 (Nat.succ_pos k')
      have hk' : k' < rest.length := Nat.lt_of_succ_lt_succ hk
      have hfalse' : p (rest.get ⟨k', hk'⟩) = false := hfalse
      have htrue' : ∀ (j : Nat) (hj : j < k'),
          p (rest.get ⟨j, hj.trans hk'⟩) = true := by
        intro j hj
        exact htrue (j + 1) (Nat.succ_lt_succ hj)
      obtain ⟨h1, h2⟩ := ih k' hk' hfalse' htrue'
      simp [List.takeWhile_cons, List.dropWhile_cons, ha, h1, h2]

/-- A nonempty list of event blocks ends with the microtask checkpoint of
its last block. -/
theorem flatMap_event_block_ends_micro {W D E : Type} (hw : Bool) :
    ∀ (l : List E) (x : E), ∃ q,
      ((x :: l).flatMap (event_block hw) : List (Action W D E)) =
        q ++ [Action.microtask_checkpoint] := by
  intro l
  induction l with
  | nil =>
    intro x
    refine ⟨Action.enter_realm :: Action.handle_event x true ::
      (if hw then [Action.handle_worker_post_event] else []), ?_⟩
    cases hw <;> simp [event_block]
  | cons y rest ih =>
    intro x
    obtain ⟨q, hq⟩ := ih y
    refine ⟨event_block hw x ++ q, ?_⟩
    rw [List.flatMap_cons, hq, List.append_assoc]

theorem handled_events_dispatch_cons {W D E : Type} (tr : List (Action W D E)) :
    handled_events (Action.dispatch_completed_timers :: tr) =
      handled_events tr := rfl

theorem count_micro_append {W D E : Type} (l1 l2 : List (Action W D E)) :
    count_micro (l1 ++ l2) = count_micro l1 + count_micro l2 :=
  List.countP_append _ _ _

theorem count_gc_append {W D E : Type} (l1 l2 : List (Action W D E)) :
    count_gc (l1 ++ l2) = count_gc l1 + count_gc l2 :=
  List.countP_append _ _ _

theorem count_dispatch_append {W D E : Type} (l1 l2 : List (Action W D E)) :
    count_dispatch (l1 ++ l2) = count_dispatch l1 + count_dispatch l2 :=
  List.countP_append _ _ _

theorem count_read_closing_append {W D E : Type} (l1 l2 : List (Action W D E)) :
    count_read_closing (l1 ++ l2) =
      count_read_closing l1 + count_read_closing l2 :=
  List.countP_append _ _ _

theorem count_micro_dispatch_cons {W D E : Type} (tr : List (Action W D E)) :
    count_micro (Action.dispatch_completed_timers :: tr) = count_micro tr := by
  simp [count_micro, List.countP_cons, Action.is_micro]

theorem count_gc_dispatch_cons {W D E : Type} (tr : List (Action W D E)) :
    count_gc (Action.dispatch_completed_timers :: tr) = count_gc tr := by
  simp [count_gc, List.countP_cons, Action.is_gc]

theorem count_dispatch_dispatch_cons {W D E : Type} (tr : List (Action W D E)) :
    count_dispatch (Action.dispatch_completed_timers :: tr) =
      count_dispatch tr + 1 := by
  simp [count_dispatch, List.countP_cons, Action.is_dispatch]

theorem count_read_closing_dispatch_cons {W D E : Type}
    (tr : List (Action W D E)) :
    count_read_closing (Action.dispatch_completed_timers :: tr) =
      count_read_closing tr := by
  simp [count_read_closing, List.countP_cons, Action.is_read_closing]

/-- C2: if `handle_event` returns `false` on event `k` of the assembled
batch (events before it accepted), then exactly events `0..k` are handled,
`k` microtask checkpoints run, no GC checkpoint runs and the invocation ends
in early shutdown; if the handler accepts every event, every event is
handled, one microtask checkpoint per event runs, and the GC checkpoint
runs exactly once, after the microtask checkpoint of the last event. -/
theorem C2_batch_truncation_and_single_gc {C W D E : Type}
    (M : WorkerEventLoopMethods C W D E) (env : WorkerEnv C W D) (e : E)
    (h : initial_event M env.wait = some e) :
    (∀ (k : Nat) (hk : k < (assembled_batch M env e).length),
      M.handle_event ((assembled_batch M env e).get ⟨k, hk⟩) = false →
      (∀ (j : Nat) (hj : j < k),
        M.handle_event ((assembled_batch M env e).get ⟨j, hj.trans hk⟩) = true) →
      handled_events (run_worker_event_loop M env).1 =
          (assembled_batch M env e).take (k + 1) ∧
        count_micro (run_worker_event_loop M env).1 = k ∧
        count_gc (run_worker_event_loop M env).1 = 0 ∧
        (run_worker_event_loop M env).2 = Outcome.shutdown) ∧
    ((∀ x ∈ assembled_batch M env e, M.handle_event x = true) →
      handled_events (run_worker_event_loop M env).1 = assembled_batch M env e ∧
        count_micro (run_worker_event_loop M env).1 =
          (assembled_batch M env e).length ∧
        count_gc (run_worker_event_loop M env).1 = 1 ∧
        (∃ p, (run_worker_event_loop M env).1 =
          p ++ [Action.microtask_checkpoint, Action.gc_checkpoint]) ∧
        (run_worker_event_loop M env).2 = Outcome.normal) := by
  obtain ⟨hR1, hR2⟩ := run_worker_event_loop_some M env e h
  constructor
  · intro k hk hfalse htrue
    obtain ⟨htw, hdw⟩ := takeWhile_eq_take_of_first_false M.handle_event
      (assembled_batch M env e) k hk hfalse htrue
    have hall : (assembled_batch M env e).all M.handle_event = false := by
      rw [Bool.eq_false_iff]
      intro hb
      rw [List.all_eq_true] at hb
      have hmem : (assembled_batch M env e).get ⟨k, hk⟩ ∈
          assembled_batch M env e := List.get_mem _ _ _
      rw [hb _ hmem] at hfalse
      simp at hfalse
    have hdrop : (assembled_batch M env e).drop k =
        (assembled_batch M env e).get ⟨k, hk⟩ ::
          (assembled_batch M env e).drop (k + 1) := by
      rw [List.get_eq_getElem]
      exact (List.getElem_cons_drop _ k hk).symm
    have hP := process_batch_eq M env.has_worker (assembled_batch M env e)
    rw [htw, hdw, hdrop, hall] at hP
    rw [hP] at hR1 hR2
    simp only [Bool.false_eq_true, if_false, List.append_nil] at hR1 hR2
    refine ⟨?_, ?_, ?_, hR2⟩
    · have htail : handled_events (W := W) (D := D)
          [Action.enter_realm,
            Action.handle_event ((assembled_batch M env e).get ⟨k, hk⟩) false] =
          [(assembled_batch M env e).get ⟨k, hk⟩] := rfl
      rw [hR1]
      simp only [handled_events_append, handled_events_dispatch_cons,
        handled_events_drain, handled_events_flatMap, htail, List.nil_append]
      rw [List.take_succ]
      congr 1
      simp [List.getElem?_eq_getElem hk, List.get_eq_getElem]
    · have htail : count_micro (W := W) (D := D)
          [Action.enter_realm,
            Action.handle_event ((assembled_batch M env e).get ⟨k, hk⟩) false] =
          0 := rfl
      rw [hR1]
      simp only [count_micro_append, count_micro_dispatch_cons,
        count_micro_drain, count_micro_flatMap, htail, List.length_take]
      omega
    · have htail : count_gc (W := W) (D := D)
          [Action.enter_realm,
            Action.handle_event ((assembled_batch M env e).get ⟨k, hk⟩) false] =
          0 := rfl
      rw [hR1]
      simp only [count_gc_append, count_gc_dispatch_cons, count_gc_drain,
        count_gc_flatMap, htail]
  · intro halltrue
    have htw : (assembled_batch M env e).takeWhile M.handle_event =
        assembled_batch M env e := List.takeWhile_eq_self_iff.mpr halltrue
    have hdw : (assembled_batch M env e).dropWhile M.handle_event = [] :=
      List.dropWhile_eq_nil_iff.mpr halltrue
    have hall : (assembled_batch M env e).all M.handle_event = true :=
      List.all_eq_true.mpr halltrue
    have hP := process_batch_eq M env.has_worker (assembled_batch M env e)
    rw [htw, hdw, hall] at hP
    simp only [List.append_nil] at hP
    rw [hP] at hR1 hR2
    simp only [if_true] at hR1 hR2
    refine ⟨?_, ?_, ?_, ?_, hR2⟩
    · have hgc : handled_events (W := W) (D := D) (E := E) [Action.gc_checkpoint] = [] :=
        rfl
      rw [hR1]
      simp only [handled_events_append, handled_events_dispatch_cons,
        handled_events_drain, handled_events_flatMap, hgc, List.nil_append,
        List.append_nil]
    · have hgc : count_micro (W := W) (D := D) (E := E) [Action.gc_checkpoint] = 0 := rfl
      rw [hR1]
      simp only [count_micro_append, count_micro_dispatch_cons,
        count_micro_drain, count_micro_flatMap, hgc]
      omega
    · have hgc : count_gc (W := W) (D := D) (E := E) [Action.gc_checkpoint] = 1 := rfl
      rw [hR1]
      simp only [count_gc_append, count_gc_dispatch_cons, count_gc_drain,
        count_gc_flatMap, hgc]
    · obtain ⟨q, hq⟩ := flatMap_event_block_ends_micro (W := W) (D := D)
        env.has_worker (drain_batch env.is_closing M env.drain_steps 0).2 e
      have hB : (assembled_batch M env e).flatMap (event_block env.has_worker) =
          q ++ [Action.microtask_checkpoint] := hq
      rw [hR1, hB]
      refine ⟨Action.dispatch_completed_timers ::
        ((drain_batch env.is_closing M env.drain_steps 0).1 ++ q), ?_⟩
      simp [List.append_assoc]

/-- C3: every event the handler accepts is followed by exactly one microtask
checkpoint, inside its own `event_block` (realm entry, handler call,
optional post-event hook, then the checkpoint), before the next event and
before anything in the trailing `tail`; no microtask checkpoint occurs in
the drain phase or in the tail, and the total number of microtask
checkpoints equals the number of accepted events. -/
theorem C3_one_microtask_checkpoint_per_processed_event {C W D E : Type}
    (M : WorkerEventLoopMethods C W D E) (env : WorkerEnv C W D) (e : E)
    (h : initial_event M env.wait = some e) :
    ∃ tail : List (Action W D E),
      (run_worker_event_loop M env).1 =
        Action.dispatch_completed_timers ::
          (drain_batch env.is_closing M env.drain_steps 0).1 ++
          ((assembled_batch M env e).takeWhile M.handle_event).flatMap
            (event_block env.has_worker) ++ tail ∧
      count_micro tail = 0 ∧
      count_micro (drain_batch env.is_closing M env.drain_steps 0).1 = 0 ∧
      count_micro (run_worker_event_loop M env).1 =
        ((assembled_batch M env e).takeWhile M.handle_event).length := by
  obtain ⟨hR1, hR2⟩ := run_worker_event_loop_some M env e h
  have hP := process_batch_eq M env.has_worker (assembled_batch M env e)
  rcases hdw : (assembled_batch M env e).dropWhile M.handle_event with _ | ⟨x, xs⟩
  · rw [hdw] at hP
    rcases hall : (assembled_batch M env e).all M.handle_event
    · rw [hall] at hP
      simp only [List.append_nil] at hP
      rw [hP] at hR1
      simp only [Bool.false_eq_true, if_false, List.append_nil] at hR1
      refine ⟨[], ?_, rfl, count_micro_drain _ _ _ _, ?_⟩
      · rw [hR1]; simp
      · rw [hR1]
        simp only [count_micro_append, count_micro_dispatch_cons,
          count_micro_drain, count_micro_flatMap]
        omega
    · rw [hall] at hP
      simp only [List.append_nil] at hP
      rw [hP] at hR1
      simp only [if_true] at hR1
      refine ⟨[Action.gc_checkpoint], ?_, rfl, count_micro_drain _ _ _ _, ?_⟩
      · rw [hR1]
      · rw [hR1]
        have hgc : count_micro (W := W) (D := D) (E := E)
            [Action.gc_checkpoint] = 0 := rfl
        simp only [count_micro_append, count_micro_dispatch_cons,
          count_micro_drain, count_micro_flatMap, hgc]
        omega
  · rw [hdw] at hP
    rcases hall : (assembled_batch M env e).all M.handle_event
    · rw [hall] at hP
      rw [hP] at hR1
      simp only [Bool.false_eq_true, if_false, List.append_nil] at hR1
      refine ⟨[Action.enter_realm, Action.handle_event x false], ?_, rfl,
        count_micro_drain _ _ _ _, ?_⟩
      · rw [hR1]; simp
      · rw [hR1]
        have htail : count_micro (W := W) (D := D)
            [Action.enter_realm, Action.handle_event x false] = 0 := rfl
        simp only [count_micro_append, count_micro_dispatch_cons,
          count_micro_drain, count_micro_flatMap, htail]
        omega
    · rw [hall] at hP
      rw [hP] at hR1
      simp only [if_true] at hR1
      refine ⟨[Action.enter_realm, Action.handle_event x false,
        Action.gc_checkpoint], ?_, rfl, count_micro_drain _ _ _ _, ?_⟩
      · rw [hR1]; simp
      · rw [hR1]
        have htail : count_micro (W := W) (D := D)
            [Action.enter_realm, Action.handle_event x false] = 0 := rfl
        have hgc : count_micro (W := W) (D := D) (E := E)
            [Action.gc_checkpoint] = 0 := rfl
        simp only [count_micro_append, count_micro_dispatch_cons,
          count_micro_drain, count_micro_flatMap, htail, hgc]
        omega

/-- C4: whichever of the four sources produced the initial event,
`dispatch_completed_timers` runs exactly once per invocation, as the very
first action, before the drain phase. -/
theorem C4_dispatch_completed_timers_once {C W D E : Type}
    (M : WorkerEventLoopMethods C W D E) (env : WorkerEnv C W D) (e : E)
    (h : initial_event M env.wait = some e) :
    count_dispatch (run_worker_event_loop M env).1 = 1 ∧
      (run_worker_event_loop M env).1.head? =
        some Action.dispatch_completed_timers := by
  obtain ⟨hR1, hR2⟩ := run_worker_event_loop_some M env e h
  constructor
  · have hgc : ∀ b : Bool, count_dispatch (W := W) (D := D) (E := E)
        (if b then [Action.gc_checkpoint] else []) = 0 := by
      intro b; cases b <;> rfl
    rw [hR1]
    simp only [count_dispatch_append, count_dispatch_dispatch_cons,
      count_dispatch_drain, count_dispatch_process, hgc]
  · rw [hR1]
    rfl

/-- C8: whenever the initial wait produces an event (so the processing phase
is reached), the batch starts with that event, `handle_event` runs at least
once and first on it; and when the closing flag is already `true` at the
first read, the drain loop exits at once without polling, leaving the batch
a singleton. -/
theorem C8_initial_event_always_processed_first {C W D E : Type}
    (M : WorkerEventLoopMethods C W D E) (env : WorkerEnv C W D) (e : E)
    (h : initial_event M env.wait = some e) :
    (handled_events (run_worker_event_loop M env).1).head? = some e ∧
      1 ≤ (handled_events (run_worker_event_loop M env).1).length ∧
      (env.is_closing 0 = true →
        drain_batch env.is_closing M env.drain_steps 0 =
          ([Action.read_is_closing true], [])) := by
  obtain ⟨hR1, hR2⟩ := run_worker_event_loop_some M env e h
  have hgc : ∀ b : Bool, handled_events (W := W) (D := D) (E := E)
      (if b then [Action.gc_checkpoint] else []) = [] := by
    intro b; cases b <;> rfl
  have hhead : (handled_events
      (process_batch M env.has_worker (assembled_batch M env e)).1).head? =
      some e := by
    by_cases hb : M.handle_event e = true
    · cases hw : env.has_worker <;>
        simp [assembled_batch, process_batch, hb, hw, handled_events]
    · simp only [Bool.not_eq_true] at hb
      simp [assembled_batch, process_batch, hb, handled_events]
  have hrun : handled_events (run_worker_event_loop M env).1 =
      handled_events
        (process_batch M env.has_worker (assembled_batch M env e)).1 := by
    rw [hR1]
    simp only [handled_events_append, handled_events_dispatch_cons,
      handled_events_drain, hgc, List.nil_append, List.append_nil]
  refine ⟨by rw [hrun]; exact hhead, ?_, ?_⟩
  · rw [hrun]
    rcases hcase : handled_events
        (process_batch M env.has_worker (assembled_batch M env e)).1 with
      _ | ⟨y, t⟩
    · rw [hcase] at hhead; simp at hhead
    · simp
  · intro hc
    rcases hs : env.drain_steps with _ | ⟨⟨tq, dv⟩, rest⟩ <;>
      simp [drain_batch, hc]

/-! ### Channel visibility during the drain phase -/

/-- Returns `true` iff every `poll_devtools` action in the list is immediately
preceded by a `poll_task_queue` returning empty (the accumulator records
whether the previous action was such a poll). -/
def devtools_polls_guarded {W D E : Type} :
    Bool → List (Action W D E) → Bool
  | _, [] => true
  | prev, a :: rest =>
    match a with
    | .poll_devtools _ => prev && devtools_polls_guarded false rest
    | .poll_task_queue none => devtools_polls_guarded true rest
    | _ => devtools_polls_guarded false rest

theorem drain_batch_devtools_guarded {C W D E : Type} (closing : Nat → Bool)
    (M : WorkerEventLoopMethods C W D E) :
    ∀ (steps : List (Option W × Option D)) (i : Nat) (prev : Bool),
      devtools_polls_guarded prev (drain_batch closing M steps i).1 = true := by
  intro steps
  induction steps with
  | nil =>
    intro i prev
    by_cases h : closing i = true <;>
      simp [drain_batch, h, devtools_polls_guarded]
  | cons step rest ih =>
    intro i prev
    obtain ⟨tq, dv⟩ := step
    by_cases h : closing i = true
    · simp [drain_batch, h, devtools_polls_guarded]
    · match htq : tq with
      | some w =>
        simp only [drain_batch, h, if_false, Bool.false_eq_true]
        simp [devtools_polls_guarded, ih rest.length]
        exact ih (i + 1) false
      | none =>
        match hdv : dv with
        | some d =>
          simp only [drain_batch, h, if_false, Bool.false_eq_true]
          simp [devtools_polls_guarded]
          exact ih (i + 1) false
        | none =>
          simp [drain_batch, h, devtools_polls_guarded]

theorem drain_batch_devtools_empty_is_last {C W D E : Type}
    (closing : Nat → Bool) (M : WorkerEventLoopMethods C W D E) :
    ∀ (steps : List (Option W × Option D)) (i : Nat),
      (Action.poll_devtools (none : Option D)) ∈
          (drain_batch closing M steps i).1 →
        (drain_batch closing M steps i).1.getLast? =
          some (Action.poll_devtools none) := by
  intro steps
  induction steps with
  | nil =>
    intro i hmem
    by_cases h : closing i = true
    · simp [drain_batch, h] at hmem
    · simp [drain_batch, h]
  | cons step rest ih =>
    intro i hmem
    obtain ⟨tq, dv⟩ := step
    by_cases h : closing i = true
    · simp [drain_batch, h] at hmem
    · match htq : tq with
      | some w =>
        simp only [drain_batch, h, if_false, Bool.false_eq_true] at hmem ⊢
        simp only [List.mem_cons] at hmem
        rcases hmem with h1 | h1 | h1
        · exact absurd h1 (by simp)
        · exact absurd h1 (by simp)
        · have hne : (drain_batch closing M rest (i + 1)).1 ≠ [] :=
            List.ne_nil_of_mem h1
          have hcons : Action.read_is_closing (W := W) (D := D) (E := E) false ::
              Action.poll_task_queue (some w) ::
                (drain_batch closing M rest (i + 1)).1 =
              [Action.read_is_closing false, Action.poll_task_queue (some w)] ++
                (drain_batch closing M rest (i + 1)).1 := rfl
          rw [hcons, List.getLast?_append_of_ne_nil _ hne]
          exact ih (i + 1) h1
      | none =>
        match hdv : dv with
        | some d =>
          simp only [drain_batch, h, if_false, Bool.false_eq_true] at hmem ⊢
          simp only [List.mem_cons] at hmem
          rcases hmem with h1 | h1 | h1 | h1
          · exact absurd h1 (by simp)
          · exact absurd h1 (by simp)
          · exact absurd h1 (by simp)
          · have hne : (drain_batch closing M rest (i + 1)).1 ≠ [] :=
              List.ne_nil_of_mem h1
            have hcons : Action.read_is_closing (W := W) (D := D) (E := E)
                false :: Action.poll_task_queue none ::
                  Action.poll_devtools (some d) ::
                  (drain_batch closing M rest (i + 1)).1 =
                [Action.read_is_closing false, Action.poll_task_queue none,
                  Action.poll_devtools (some d)] ++
                  (drain_batch closing M rest (i + 1)).1 := rfl
            rw [hcons, List.getLast?_append_of_ne_nil _ hne]
            exact ih (i + 1) h1
        | none =>
          simp [drain_batch, h]

/-- C5: during the drain phase only the task queue and the devtools channel
are polled — the control channel and the timer-wake signal never are; the
devtools channel is tried only immediately after the task queue reported
empty; and once a devtools poll also reports empty it is the last action of
the drain phase (the batch stops growing), after which the trace moves on
to the processing phase. -/
theorem C5_drain_phase_visibility {C W D E : Type}
    (M : WorkerEventLoopMethods C W D E) (env : WorkerEnv C W D) (e : E)
    (h : initial_event M env.wait = some e) :
    (∀ a ∈ (drain_batch env.is_closing M env.drain_steps 0).1,
        a ≠ Action.poll_control ∧ a ≠ Action.poll_timer_wake) ∧
      devtools_polls_guarded false
        (drain_batch env.is_closing M env.drain_steps 0).1 = true ∧
      ((Action.poll_devtools (none : Option D)) ∈
          (drain_batch env.is_closing M env.drain_steps 0).1 →
        (drain_batch env.is_closing M env.drain_steps 0).1.getLast? =
          some (Action.poll_devtools none)) ∧
      (run_worker_event_loop M env).1 =
        Action.dispatch_completed_timers ::
          (drain_batch env.is_closing M env.drain_steps 0).1 ++
          ((process_batch M env.has_worker (assembled_batch M env e)).1 ++
            (if (process_batch M env.has_worker
                (assembled_batch M env e)).2 then
              [Action.gc_checkpoint] else [])) := by
  obtain ⟨hR1, hR2⟩ := run_worker_event_loop_some M env e h
  refine ⟨?_, drain_batch_devtools_guarded _ _ _ _ _,
    drain_batch_devtools_empty_is_last _ _ _ _, ?_⟩
  · intro a ha
    have hs := drain_batch_shape env.is_closing M env.drain_steps 0 a ha
    constructor <;> rintro rfl <;> simp [Action.is_drain_action] at hs
  · rw [hR1]
    simp [List.append_assoc]

/-! ### C1 and C6: where the spec deviates from the code -/

/-- C1 (amended): disconnection of the control channel or the task-queue
ready source during the initial wait makes `run_worker_event_loop` panic
(the fired branch calls `.unwrap()` on an `Err`), rather than return
normally; `handle_event` is never invoked and the trailing GC checkpoint
does not run. -/
theorem C1_initial_disconnect_panics {C W D E : Type}
    (M : WorkerEventLoopMethods C W D E) (env : WorkerEnv C W D)
    (h : env.wait = WaitOutcome.control (Except.error ()) ∨
      env.wait = WaitOutcome.task_ready (Except.error ())) :
    run_worker_event_loop M env = ([], Outcome.panicked) ∧
      handled_events (run_worker_event_loop M env).1 = [] ∧
      count_gc (run_worker_event_loop M env).1 = 0 := by
  have hnone : initial_event M env.wait = none := by
    rcases h with h | h <;> rw [h] <;> rfl
  have hrun : run_worker_event_loop M env = ([], Outcome.panicked) := by
    simp [run_worker_event_loop, hnone]
  refine ⟨hrun, ?_, ?_⟩ <;> rw [hrun] <;> rfl

/-- Concrete trait instance over `Nat` messages: the handler rejects
exactly the event `102`. -/
def natMethods : WorkerEventLoopMethods Nat Nat Nat Nat where
  from_control_msg := fun c => c
  from_worker_msg := fun w => 100 + w
  from_devtools_msg := fun d => 200 + d
  from_timer_msg := 300
  handle_event := fun e => decide (e ≠ 102)

/-- Control channel disconnected during the initial wait. -/
def envC1 : WorkerEnv Nat Nat Nat where
  wait := .control (.error ())
  is_closing := fun _ => false
  drain_steps := []
  has_worker := false

/-- C1 as stated is false: with the control channel disconnected during the
initial wait, the invocation does not return to its caller at all (neither
the normal nor the early-shutdown return) — it panics. -/
theorem C1_counterexample :
    ¬ ((run_worker_event_loop natMethods envC1).2 = Outcome.normal ∨
      (run_worker_event_loop natMethods envC1).2 = Outcome.shutdown) := by
  decide

/-- C1 witness. -/
theorem C1_witness :
    run_worker_event_loop natMethods envC1 = ([], Outcome.panicked) ∧
      handled_events (run_worker_event_loop natMethods envC1).1 = [] ∧
      count_gc (run_worker_event_loop natMethods envC1).1 = 0 :=
  C1_initial_disconnect_panics natMethods envC1 (Or.inl rfl)

/-- One task-queue item available during the drain phase; the closing flag
stays `false`, so the drain loop reads it twice (before each of its two
iterations). -/
def envC6 : WorkerEnv Nat Nat Nat where
  wait := .timer_wake
  is_closing := fun _ => false
  drain_steps := [(some 5, none)]
  has_worker := false

/-- C6 as stated is false: in a single invocation whose drain phase picks
up one task, the closing flag is read twice, not at most once. -/
theorem C6_counterexample :
    ¬ (count_read_closing (run_worker_event_loop natMethods envC6).1 ≤ 1) := by
  decide

/-- C6 (amended): the closing flag is read once at the top of every
drain-loop iteration — so up to once per drained batch item, plus a final
read — all during the drain phase and never during batch processing; and a
batch already assembled is fully processed whenever the handler accepts
every event. -/
theorem C6_closing_read_per_drain_iteration {C W D E : Type}
    (M : WorkerEventLoopMethods C W D E) (env : WorkerEnv C W D) (e : E)
    (h : initial_event M env.wait = some e) :
    count_read_closing (run_worker_event_loop M env).1 =
        count_read_closing (drain_batch env.is_closing M env.drain_steps 0).1 ∧
      count_read_closing
        (process_batch M env.has_worker (assembled_batch M env e)).1 = 0 ∧
      ((∀ x ∈ assembled_batch M env e, M.handle_event x = true) →
        handled_events (run_worker_event_loop M env).1 =
          assembled_batch M env e) := by
  obtain ⟨hR1, hR2⟩ := run_worker_event_loop_some M env e h
  refine ⟨?_, count_read_closing_process _ _ _, ?_⟩
  · have hgc : ∀ b : Bool, count_read_closing (W := W) (D := D) (E := E)
        (if b then [Action.gc_checkpoint] else []) = 0 := by
      intro b; cases b <;> rfl
    rw [hR1]
    simp only [count_read_closing_append, count_read_closing_dispatch_cons,
      count_read_closing_process, hgc]
    omega
  · intro halltrue
    have htw : (assembled_batch M env e).takeWhile M.handle_event =
        assembled_batch M env e := List.takeWhile_eq_self_iff.mpr halltrue
    have hdw : (assembled_batch M env e).dropWhile M.handle_event = [] :=
      List.dropWhile_eq_nil_iff.mpr halltrue
    have hall : (assembled_batch M env e).all M.handle_event = true :=
      List.all_eq_true.mpr halltrue
    have hP := process_batch_eq M env.has_worker (assembled_batch M env e)
    rw [htw, hdw, hall] at hP
    simp only [List.append_nil] at hP
    rw [hP] at hR1
    simp only [if_true] at hR1
    have hgc : handled_events (W := W) (D := D) (E := E)
        [Action.gc_checkpoint] = [] := rfl
    rw [hR1]
    simp only [handled_events_append, handled_events_dispatch_cons,
      handled_events_drain, handled_events_flatMap, hgc, List.nil_append,
      List.append_nil]

/-! ### C7: ScriptPort::recv for Receiver<DedicatedWorkerScriptMsg> -/

/-- Model of `WorkerScriptMsg`: a generic-task payload or a structured DOM message. -/
inductive WorkerScriptMsg (S O T : Type) where
  | Common (msg : S)
  | DOMMessage (origin : O) (data : T)

/-- Model of `DedicatedWorkerScriptMsg`: a payload tagged with the worker address, or
the wake sentinel. -/
inductive DedicatedWorkerScriptMsg (A S O T : Type) where
  | CommonWorker (worker : A) (msg : WorkerScriptMsg S O T)
  | WakeUp

/-- Behaviour of `ScriptPort::recv`: a returned message, the `Err(())` for
a disconnected channel, or the `panic!("unexpected worker event
message!")`. -/
inductive RecvOutcome (S : Type) where
  | ok (msg : S)
  | disconnected
  | panics

/-- Model of `ScriptPort::recv` for `Receiver<DedicatedWorkerScriptMsg>`: unwraps a
`CommonWorker(_, Common(msg))` into `Ok(msg)`, maps channel disconnection
to `Err(())`, and panics on the `WakeUp` sentinel or a `DOMMessage`
payload. -/
def script_port_recv {A S O T : Type}
    (r : Except Unit (DedicatedWorkerScriptMsg A S O T)) : RecvOutcome S :=
  match r with
  | .ok (.CommonWorker _worker common_msg) =>
    match common_msg with
    | .Common script_msg => .ok script_msg
    | .DOMMessage _ _ => .panics
  | .error _ => .disconnected
  | .ok .WakeUp => .panics

/-- C7: on the worker-task channel, a `WakeUp` sentinel or a `DOMMessage`
payload makes `ScriptPort::recv` panic; a `Common` payload is returned as
`Ok` and a disconnection as `Err`. -/
theorem C7_recv_aborts_on_invalid_variant :
    ∀ (A S O T : Type) (w : A) (m : S) (o : O) (t : T),
      script_port_recv (Except.ok (DedicatedWorkerScriptMsg.CommonWorker w
          (WorkerScriptMsg.Common (O := O) (T := T) m))) = RecvOutcome.ok m ∧
      script_port_recv (Except.ok (DedicatedWorkerScriptMsg.CommonWorker w
          (WorkerScriptMsg.DOMMessage (S := S) o t))) =
        RecvOutcome.panics ∧
      script_port_recv (Except.ok (DedicatedWorkerScriptMsg.WakeUp
          (A := A) (S := S) (O := O) (T := T))) = RecvOutcome.panics ∧
      script_port_recv (A := A) (S := S) (O := O) (T := T)
          (Except.error ()) = RecvOutcome.disconnected := by
  intro A S O T w m o t
  exact ⟨rfl, rfl, rfl, rfl⟩

/-! ### C9: EventLoopGuard and with_current_event_loop -/

/-- Model of `EventLoopGuard::new`: asserts the thread-local `CURRENT_EVENT_LOOP`
slot is empty, then stores the event-loop pointer; an already-occupied slot
fails the assertion (modelled as `Except.error`). Returns the new slot
contents on success. -/
def EventLoopGuard.new {P : Type} (slot : Option P) (event_loop : P) :
    Except Unit (Option P) :=
  match slot with
  | some _ => .error ()
  | none => .ok (some event_loop)

/-- Model of `Drop for EventLoopGuard`: resets the slot to `None`. -/
def EventLoopGuard.drop {P : Type} (_slot : Option P) : Option P := none

/-- Model of `with_current_event_loop`: applies `f` to the stored event loop when the
slot is occupied, returning `None` otherwise. -/
def with_current_event_loop {P R : Type} (slot : Option P) (f : P → R) :
    Option R :=
  slot.map f

/-- C9: creating a guard while one is alive fails the assertion; creating
one on an empty slot fills it; dropping the guard empties the slot; and
`with_current_event_loop` returns `Some` exactly when the slot is occupied
(in particular `None` after a drop). -/
theorem C9_event_loop_guard_exclusive :
    ∀ (P R : Type) (p q : P) (s : Option P) (f : P → R),
      EventLoopGuard.new (some q) p = Except.error () ∧
      EventLoopGuard.new (none : Option P) p = Except.ok (some p) ∧
      EventLoopGuard.drop s = (none : Option P) ∧
      (with_current_event_loop s f).isSome = s.isSome ∧
      with_current_event_loop (some p) f = some (f p) ∧
      with_current_event_loop (EventLoopGuard.drop s) f = none := by
  intro P R p q s f
  refine ⟨rfl, rfl, rfl, ?_, rfl, rfl⟩
  cases s <;> rfl

/-! ### C10: headless sleep and wake -/

/-- Whether `EventsLoop::sleep` returned before waiting on the condition
variable, or performed the timed wait. -/
inductive SleepOutcome where
  | returned_immediately
  | waited_with_timeout
  deriving DecidableEq, Repr

/-- Model of `EventsLoop::sleep`: takes the lock, checks the signalling flag, and
returns at once when it is set; otherwise waits on the condition variable
with a 5 ms timeout. -/
def EventsLoop.sleep (flag : Bool) : SleepOutcome :=
  if flag then .returned_immediately else .waited_with_timeout

/-- Model of `HeadlessEventLoopWaker::wake`: sets the signalling flag to `true`
(and notifies the condition variable). Returns the new flag value. -/
def HeadlessEventLoopWaker.wake (_flag : Bool) : Bool := true

/-- C10: after `wake` has set the signalling flag and nothing cleared it, a
subsequent `sleep` observes the flag and returns immediately, without
waiting on the condition variable. -/
theorem C10_wake_not_lost_before_sleep :
    ∀ flag : Bool,
      HeadlessEventLoopWaker.wake flag = true ∧
      EventsLoop.sleep (HeadlessEventLoopWaker.wake flag) =
        SleepOutcome.returned_immediately := by
  intro flag
  exact ⟨rfl, rfl⟩

/-! ### Witness environments and witnesses -/

/-- Timer wake, then two task items drained; the handler rejects the third
batch event (`102`). -/
def envC2 : WorkerEnv Nat Nat Nat where
  wait := .timer_wake
  is_closing := fun _ => false
  drain_steps := [(some 1, none), (some 2, none)]
  has_worker := false

/-- C2 witness. -/
theorem C2_witness :
    handled_events (run_worker_event_loop natMethods envC2).1 =
        (assembled_batch natMethods envC2 300).take (2 + 1) ∧
      count_micro (run_worker_event_loop natMethods envC2).1 = 2 ∧
      count_gc (run_worker_event_loop natMethods envC2).1 = 0 ∧
      (run_worker_event_loop natMethods envC2).2 = Outcome.shutdown :=
  (C2_batch_truncation_and_single_gc natMethods envC2 300 rfl).1 2 (by decide)
    (by decide) (by decide)

/-- Control message first, then one devtools message drained; the handler
accepts the whole batch. -/
def envC3 : WorkerEnv Nat Nat Nat where
  wait := .control (.ok 7)
  is_closing := fun _ => false
  drain_steps := [(none, some 4)]
  has_worker := false

/-- C3 witness. -/
theorem C3_witness :
    ∃ tail : List (Action Nat Nat Nat),
      (run_worker_event_loop natMethods envC3).1 =
        Action.dispatch_completed_timers ::
          (drain_batch envC3.is_closing natMethods envC3.drain_steps 0).1 ++
          ((assembled_batch natMethods envC3 7).takeWhile
            natMethods.handle_event).flatMap
            (event_block envC3.has_worker) ++ tail ∧
      count_micro tail = 0 ∧
      count_micro
        (drain_batch envC3.is_closing natMethods envC3.drain_steps 0).1 = 0 ∧
      count_micro (run_worker_event_loop natMethods envC3).1 =
        ((assembled_batch natMethods envC3 7).takeWhile
          natMethods.handle_event).length :=
  C3_one_microtask_checkpoint_per_processed_event natMethods envC3 7 rfl

/-- Devtools message resolves the initial wait; nothing to drain. -/
def envC4 : WorkerEnv Nat Nat Nat where
  wait := .devtools (.ok 9)
  is_closing := fun _ => false
  drain_steps := []
  has_worker := false

/-- C4 witness. -/
theorem C4_witness :
    count_dispatch (run_worker_event_loop natMethods envC4).1 = 1 ∧
      (run_worker_event_loop natMethods envC4).1.head? =
        some Action.dispatch_completed_timers :=
  C4_dispatch_completed_timers_once natMethods envC4 209 rfl

/-- Timer wake, then a task item, then a devtools item after the task queue
reports empty. -/
def envC5 : WorkerEnv Nat Nat Nat where
  wait := .timer_wake
  is_closing := fun _ => false
  drain_steps := [(some 1, none), (none, some 2)]
  has_worker := false

/-- C5 witness. -/
theorem C5_witness :
    (∀ a ∈ (drain_batch envC5.is_closing natMethods envC5.drain_steps 0).1,
        a ≠ Action.poll_control ∧ a ≠ Action.poll_timer_wake) ∧
      devtools_polls_guarded false
        (drain_batch envC5.is_closing natMethods envC5.drain_steps 0).1 =
        true ∧
      ((Action.poll_devtools (none : Option Nat)) ∈
          (drain_batch envC5.is_closing natMethods envC5.drain_steps 0).1 →
        (drain_batch envC5.is_closing natMethods
          envC5.drain_steps 0).1.getLast? =
          some (Action.poll_devtools none)) ∧
      (run_worker_event_loop natMethods envC5).1 =
        Action.dispatch_completed_timers ::
          (drain_batch envC5.is_closing natMethods envC5.drain_steps 0).1 ++
          ((process_batch natMethods envC5.has_worker
              (assembled_batch natMethods envC5 300)).1 ++
            (if (process_batch natMethods envC5.has_worker
                (assembled_batch natMethods envC5 300)).2 then
              [Action.gc_checkpoint] else [])) :=
  C5_drain_phase_visibility natMethods envC5 300 rfl

/-- C6 witness (for the amended statement). -/
theorem C6_witness :
    count_read_closing (run_worker_event_loop natMethods envC6).1 =
        count_read_closing
          (drain_batch envC6.is_closing natMethods envC6.drain_steps 0).1 ∧
      count_read_closing (process_batch natMethods envC6.has_worker
        (assembled_batch natMethods envC6 300)).1 = 0 ∧
      ((∀ x ∈ assembled_batch natMethods envC6 300,
          natMethods.handle_event x = true) →
        handled_events (run_worker_event_loop natMethods envC6).1 =
          assembled_batch natMethods envC6 300) :=
  C6_closing_read_per_drain_iteration natMethods envC6 300 rfl

/-- Task message resolves the initial wait while the closing flag is
already set; the drain phase is skipped but the initial event is still
processed. -/
def envC8 : WorkerEnv Nat Nat Nat where
  wait := .task_ready (.ok 3)
  is_closing := fun _ => true
  drain_steps := [(some 9, none)]
  has_worker := true

/-- C8 witness. -/
theorem C8_witness :
    (handled_events (run_worker_event_loop natMethods envC8).1).head? =
        some 103 ∧
      1 ≤ (handled_events (run_worker_event_loop natMethods envC8).1).length ∧
      (envC8.is_closing 0 = true →
        drain_batch envC8.is_closing natMethods envC8.drain_steps 0 =
          ([Action.read_is_closing true], [])) :=
  C8_initial_event_always_processed_first natMethods envC8 103 rfl

end Servo
